import Mathlib

/-!
Verification of the PagerDuty acknowledge-button platform
(`custom_components/pagerduty/button.py`).

The Python module maintains a dictionary `tracked_buttons` mapping incident
ids to live `PagerDutyAcknowledgeButton` entities, reconciled against the
coordinator's incident snapshot on every update, plus a one-time startup
sweep of the entity registry.  We embed the data model and the functions of
that file as executable Lean definitions and prove the stated properties.

Python dictionary values obtained with `.get` are modelled as `Option`
(`none` = key absent / value `None`); Python string interpolation of such a
value is `pyStrOptS` / `pyStrOptI` (`None` prints as `"None"`).  The
`tracked_buttons` dict is an insertion-ordered association list.
-/

set_option autoImplicit false

namespace PagerDuty

/-- An incident record of the coordinator snapshot, with the fields read by
`button.py`.  Each field is `Option`-valued because the Python code accesses
them with `dict.get`, which yields `None` when the key is missing.
`service_summary` models `incident.get("service", {}).get("summary")`. -/
structure Incident where
  id : Option String
  status : Option String
  incident_number : Option Int
  title : Option String
  service_summary : Option String
deriving DecidableEq, Repr

/-- Python `str(x)` for an optional string: `None` prints as `"None"`. -/
def pyStrOptS : Option String → String
  | none => "None"
  | some s => s

/-- Python `str(x)` for an optional integer: `None` prints as `"None"`. -/
def pyStrOptI : Option Int → String
  | none => "None"
  | some n => toString n

/-- The state captured by `PagerDutyAcknowledgeButton.__init__` from the
incident dict at creation time. -/
structure Button where
  incident_id : Option String
  incident_number : Option Int
  incident_title : String
  service_name : String
  default_from_email : String
deriving DecidableEq, Repr

/-- `PagerDutyAcknowledgeButton.__init__`: copy the incident's fields,
defaulting `title` and `service.summary` to `"Unknown"`. -/
def mkButton (incident : Incident) (default_from_email : String) : Button :=
  { incident_id := incident.id
    incident_number := incident.incident_number
    incident_title := incident.title.getD "Unknown"
    service_name := incident.service_summary.getD "Unknown"
    default_from_email := default_from_email }

/-- `self._attr_name = f"Acknowledge Incident #{self._incident_number}"`. -/
def button_name (b : Button) : String :=
  "Acknowledge Incident #" ++ pyStrOptI b.incident_number

/-- `self._attr_unique_id = f"pagerduty_ack_{self._incident_id}"`. -/
def button_unique_id (b : Button) : String :=
  "pagerduty_ack_" ++ pyStrOptS b.incident_id

/-- The `extra_state_attributes` property: the four stored display fields. -/
structure StateAttributes where
  incident_id : Option String
  incident_number : Option Int
  incident_title : String
  service_name : String
deriving DecidableEq, Repr

/-- `PagerDutyAcknowledgeButton.extra_state_attributes`. -/
def extra_state_attributes (b : Button) : StateAttributes :=
  { incident_id := b.incident_id
    incident_number := b.incident_number
    incident_title := b.incident_title
    service_name := b.service_name }

/-- The `tracked_buttons` Python dict: an insertion-ordered association list
from incident id (possibly `None`) to button. -/
abbrev TrackedMap := List (Option String × Button)

/-- Python `tracked_buttons[key]` / `key in tracked_buttons`: first entry
with the given key. -/
def lookupTB : TrackedMap → Option String → Option Button
  | [], _ => none
  | (k, v) :: rest, key => if k = key then some v else lookupTB rest key

/-- `triggered_incident_ids`: the set of `incident.get("id")` values of the
snapshot entries whose status is `"triggered"` (as a list; only membership
matters).  This is the set built by the first loop of
`async_add_remove_buttons`, used by its second loop. -/
def triggered_ids (incidents : List Incident) : List (Option String) :=
  (incidents.filter (fun i => i.status = some "triggered")).map (fun i => i.id)

/-- First loop of `async_add_remove_buttons`: walk the snapshot; for each
triggered incident whose id is not yet tracked, construct a button, insert
it (Python dict insertion appends), and record it as created. -/
def addLoop (email : String) :
    List Incident → TrackedMap → List Button → TrackedMap × List Button
  | [], tracked, created => (tracked, created)
  | inc :: rest, tracked, created =>
    if inc.status = some "triggered" then
      if (lookupTB tracked inc.id).isSome then
        addLoop email rest tracked created
      else
        addLoop email rest (tracked ++ [(inc.id, mkButton inc email)])
          (created ++ [mkButton inc email])
    else
      addLoop email rest tracked created

/-- Second loop of `async_add_remove_buttons`: pop every tracked key that is
absent from `triggered_incident_ids`; removed buttons are scheduled for
`async_remove(force_remove=True)`. -/
def removeLoop (trig : List (Option String)) :
    TrackedMap → TrackedMap × List Button
  | [] => ([], [])
  | (k, b) :: rest =>
    let r := removeLoop trig rest
    if k ∈ trig then ((k, b) :: r.1, r.2) else (r.1, b :: r.2)

/-- Result of one reconciliation pass: the updated tracked map, the buttons
passed to `async_add_entities`, and the buttons removed. -/
structure ReconcileResult where
  tracked : TrackedMap
  created : List Button
  removed : List Button
deriving DecidableEq, Repr

/-- One full pass of `async_add_remove_buttons` over the snapshot
`incidents`, starting from the current `tracked_buttons` map. -/
def async_add_remove_buttons (email : String) (incidents : List Incident)
    (tracked : TrackedMap) : ReconcileResult :=
  let a := addLoop email incidents tracked []
  let r := removeLoop (triggered_ids incidents) a.1
  { tracked := r.1, created := a.2, removed := r.2 }

/-- The `available` property's loop: scan the current snapshot for the first
incident whose `id` equals the button's incident id; if found, return
whether its status is `"triggered"`; if the scan ends, return `False`. -/
def availableLoop (target : Option String) : List Incident → Bool
  | [] => false
  | inc :: rest =>
    if inc.id = target then decide (inc.status = some "triggered")
    else availableLoop target rest

/-- `PagerDutyAcknowledgeButton.available` on the coordinator's current
incident list. -/
def available (b : Button) (incidents : List Incident) : Bool :=
  availableLoop b.incident_id incidents

/-- The single `session.rput` call issued by `_acknowledge_incident`:
resource path, the two fields of the JSON body, and the header dict. -/
structure Request where
  path : String
  body_type : String
  body_status : String
  headers : List (String × String)
deriving DecidableEq, Repr

/-- `PagerDutyAcknowledgeButton._acknowledge_incident`: build the incident
URL and headers (the `From` header only when `default_from_email` is truthy,
i.e. non-empty) and issue the `rput`.  The returned list holds every request
the method issues, in order. -/
def acknowledge_incident (b : Button) : List Request :=
  let incident_url := "/incidents/" ++ pyStrOptS b.incident_id
  let headers : List (String × String) :=
    if b.default_from_email ≠ "" then [("From", b.default_from_email)] else []
  [{ path := incident_url
     body_type := "incident"
     body_status := "acknowledged"
     headers := headers }]

/-- Outcome of `PagerDutyAcknowledgeButton.async_press`, given the outcome
`remote` of the executor job running `_acknowledge_incident`.  The method
requests a coordinator refresh only after a successful call; on an exception
it logs and re-raises, leaving the button's fields and the tracked map (not
even in its scope) untouched. -/
structure PressResult where
  result : Except String Unit
  refresh_requested : Bool
  button_after : Button
  tracked_after : TrackedMap
deriving Repr

/-- `PagerDutyAcknowledgeButton.async_press`. -/
def async_press (b : Button) (tracked : TrackedMap)
    (remote : Except String Unit) : PressResult :=
  match remote with
  | Except.ok _ =>
    { result := Except.ok (), refresh_requested := true
      button_after := b, tracked_after := tracked }
  | Except.error e =>
    { result := Except.error e, refresh_requested := false
      button_after := b, tracked_after := tracked }

/-- An entity-registry record as consulted by `async_setup_entry`:
`unique_id` may be `None`, `entity_id` is the handle passed to
`async_remove`. -/
structure RegistryEntry where
  unique_id : Option String
  entity_id : String
deriving DecidableEq, Repr

/-- Python `s.startswith(pre)`, modelled on the character lists. -/
def py_startswith (s pre : String) : Bool :=
  pre.data.isPrefixOf s.data

/-- Python dict insertion: overwrite in place if the key exists, else append. -/
def dictInsert (m : List (String × RegistryEntry)) (k : String)
    (v : RegistryEntry) : List (String × RegistryEntry) :=
  if (m.lookup k).isSome then
    m.map (fun p => if p.1 = k then (k, v) else p)
  else m ++ [(k, v)]

/-- One step of the `existing_button_entities` dict comprehension: keep a
registry entry only when its `unique_id` is truthy (non-`None`, non-empty)
and starts with `"pagerduty_ack_"`, keyed by `unique_id`. -/
def ebeStep (m : List (String × RegistryEntry)) (e : RegistryEntry) :
    List (String × RegistryEntry) :=
  match e.unique_id with
  | some s =>
    if s ≠ "" ∧ py_startswith s "pagerduty_ack_" then dictInsert m s e
    else m
  | none => m

/-- The `existing_button_entities` dict comprehension over the registry
entries of the config entry. -/
def existing_button_entities (entities : List RegistryEntry) :
    List (String × RegistryEntry) :=
  entities.foldl ebeStep []

/-- The `current_triggered_ids` set comprehension:
`f"pagerduty_ack_{incident.get('id')}"` for every triggered incident. -/
def current_triggered_unique_ids (incidents : List Incident) : List String :=
  (incidents.filter (fun i => i.status = some "triggered")).map
    (fun i => "pagerduty_ack_" ++ pyStrOptS i.id)

/-- The startup orphan-sweep loop of `async_setup_entry`: remove every
entity of `existing_button_entities` whose `unique_id` is not in
`current_triggered_ids`.  Returns the removed registry entries, in
iteration order. -/
def orphan_sweep (entities : List RegistryEntry)
    (incidents : List Incident) : List RegistryEntry :=
  ((existing_button_entities entities).filter
      (fun p => ¬ p.1 ∈ current_triggered_unique_ids incidents)).map
    (fun p => p.2)

/-! ### Helper lemmas about the reconciliation loops -/

theorem triggered_ids_cons (inc : Incident) (rest : List Incident) :
    triggered_ids (inc :: rest) =
      if inc.status = some "triggered" then inc.id :: triggered_ids rest
      else triggered_ids rest := by
  by_cases h : inc.status = some "triggered" <;>
    simp [triggered_ids, List.filter_cons, h]

theorem mem_triggered_ids {incidents : List Incident} {k : Option String} :
    k ∈ triggered_ids incidents ↔
      ∃ i ∈ incidents, i.status = some "triggered" ∧ i.id = k := by
  simp only [triggered_ids, List.mem_map, List.mem_filter, decide_eq_true_eq]
  constructor
  · rintro ⟨i, ⟨hi, hs⟩, hid⟩
    exact ⟨i, hi, hs, hid⟩
  · rintro ⟨i, hi, hs, hid⟩
    exact ⟨i, ⟨hi, hs⟩, hid⟩

theorem lookupTB_append (m : TrackedMap) (k' : Option String) (v' : Button)
    (k : Option String) :
    lookupTB (m ++ [(k', v')]) k =
      match lookupTB m k with
      | some v => some v
      | none => if k' = k then some v' else none := by
  induction m with
  | nil => simp [lookupTB]
  | cons p rest ih =>
    obtain ⟨k₀, v₀⟩ := p
    by_cases h : k₀ = k <;> simp [lookupTB, h, ih]

theorem addLoop_lookup_preserved (email : String) (incs : List Incident) :
    ∀ (tracked : TrackedMap) (created : List Button) (k : Option String)
      (v : Button), lookupTB tracked k = some v →
      lookupTB (addLoop email incs tracked created).1 k = some v := by
  induction incs with
  | nil => intro tracked created k v h; simpa [addLoop] using h
  | cons inc rest ih =>
    intro tracked created k v h
    by_cases hs : inc.status = some "triggered"
    · by_cases ht : (lookupTB tracked inc.id).isSome
      · simpa [addLoop, hs, ht] using ih tracked created k v h
      · have h' : lookupTB (tracked ++ [(inc.id, mkButton inc email)]) k
            = some v := by
          rw [lookupTB_append, h]
        simpa [addLoop, hs, ht] using
          ih (tracked ++ [(inc.id, mkButton inc email)])
            (created ++ [mkButton inc email]) k v h'
    · simpa [addLoop, hs] using ih tracked created k v h

theorem addLoop_lookup_isSome_iff (email : String) (incs : List Incident) :
    ∀ (tracked : TrackedMap) (created : List Button) (k : Option String),
      (lookupTB (addLoop email incs tracked created).1 k).isSome ↔
        ((lookupTB tracked k).isSome ∨ k ∈ triggered_ids incs) := by
  induction incs with
  | nil => intro tracked created k; simp [addLoop, triggered_ids]
  | cons inc rest ih =>
    intro tracked created k
    rw [triggered_ids_cons]
    by_cases hs : inc.status = some "triggered"
    · by_cases ht : (lookupTB tracked inc.id).isSome
      · rw [show addLoop email (inc :: rest) tracked created
              = addLoop email rest tracked created by simp [addLoop, hs, ht],
            ih]
        simp only [hs, if_pos, List.mem_cons]
        constructor
        · rintro (h | h)
          · exact Or.inl h
          · exact Or.inr (Or.inr h)
        · rintro (h | h | h)
          · exact Or.inl h
          · subst h; exact Or.inl ht
          · exact Or.inr h
      · rw [show addLoop email (inc :: rest) tracked created
              = addLoop email rest (tracked ++ [(inc.id, mkButton inc email)])
                  (created ++ [mkButton inc email]) by simp [addLoop, hs, ht],
            ih]
        rw [lookupTB_append]
        have ht' : lookupTB tracked inc.id = none := by
          cases h : lookupTB tracked inc.id with
          | none => rfl
          | some v => rw [h] at ht; simp at ht
        simp only [hs, if_pos, List.mem_cons]
        by_cases hk : k = inc.id
        · subst hk
          rw [ht']
          simp
        · have hne : inc.id ≠ k := fun h => hk h.symm
          cases h : lookupTB tracked k with
          | none => simp [h, hne, hk]
          | some v => simp [h]
    · rw [show addLoop email (inc :: rest) tracked created
            = addLoop email rest tracked created by simp [addLoop, hs], ih]
      simp [hs]

theorem lookupTB_removeLoop (trig : List (Option String)) (m : TrackedMap)
    (k : Option String) :
    lookupTB (removeLoop trig m).1 k =
      if k ∈ trig then lookupTB m k else none := by
  induction m with
  | nil => simp [removeLoop, lookupTB]
  | cons p rest ih =>
    obtain ⟨k₀, v₀⟩ := p
    by_cases hk₀ : k₀ ∈ trig
    · by_cases hk : k₀ = k
      · subst hk
        simp [removeLoop, hk₀, lookupTB]
      · simp [removeLoop, hk₀, lookupTB, hk, ih]
    · by_cases hk : k ∈ trig
      · have hne : k₀ ≠ k := fun h => hk₀ (h ▸ hk)
        simp [removeLoop, hk₀, lookupTB, hk, hne, ih]
      · simp [removeLoop, hk₀, hk, ih]


theorem reconcile_lookup_isSome (email : String) (incs : List Incident)
    (tracked : TrackedMap) (k : Option String) :
    (lookupTB (async_add_remove_buttons email incs tracked).tracked k).isSome
      ↔ k ∈ triggered_ids incs := by
  unfold async_add_remove_buttons
  rw [lookupTB_removeLoop]
  by_cases hk : k ∈ triggered_ids incs
  · simp only [hk, if_pos]
    rw [addLoop_lookup_isSome_iff]
    simp [hk]
  · simp [hk]

theorem reconcile_lookup_preserved (email : String) (incs : List Incident)
    (tracked : TrackedMap) (k : Option String) (b : Button)
    (h : lookupTB tracked k = some b) (hk : k ∈ triggered_ids incs) :
    lookupTB (async_add_remove_buttons email incs tracked).tracked k
      = some b := by
  unfold async_add_remove_buttons
  rw [lookupTB_removeLoop]
  simp only [hk, if_pos]
  exact addLoop_lookup_preserved email incs tracked [] k b h

theorem addLoop_noop (email : String) (incs : List Incident)
    (tracked : TrackedMap) (created : List Button)
    (h : ∀ inc ∈ incs, inc.status = some "triggered" →
      (lookupTB tracked inc.id).isSome) :
    addLoop email incs tracked created = (tracked, created) := by
  induction incs with
  | nil => simp [addLoop]
  | cons inc rest ih =>
    by_cases hs : inc.status = some "triggered"
    · have ht := h inc (List.mem_cons_self inc rest) hs
      rw [show addLoop email (inc :: rest) tracked created
            = addLoop email rest tracked created by simp [addLoop, hs, ht]]
      exact ih (fun i hi hsi => h i (List.mem_cons_of_mem inc hi) hsi)
    · rw [show addLoop email (inc :: rest) tracked created
            = addLoop email rest tracked created by simp [addLoop, hs]]
      exact ih (fun i hi hsi => h i (List.mem_cons_of_mem inc hi) hsi)

theorem removeLoop_noop (trig : List (Option String)) (m : TrackedMap)
    (h : ∀ p ∈ m, p.1 ∈ trig) : removeLoop trig m = (m, []) := by
  induction m with
  | nil => simp [removeLoop]
  | cons p rest ih =>
    have hp : p.1 ∈ trig := h p (List.mem_cons_self p rest)
    obtain ⟨k, b⟩ := p
    simp only [removeLoop, hp, if_pos,
      ih (fun q hq => h q (List.mem_cons_of_mem _ hq))]

theorem mem_removeLoop_fst (trig : List (Option String)) (m : TrackedMap)
    (p : Option String × Button) (h : p ∈ (removeLoop trig m).1) :
    p ∈ m ∧ p.1 ∈ trig := by
  induction m with
  | nil => simp [removeLoop] at h
  | cons q rest ih =>
    obtain ⟨k, b⟩ := q
    by_cases hk : k ∈ trig
    · simp only [removeLoop, hk, if_pos, List.mem_cons] at h
      rcases h with h | h
      · subst h; exact ⟨List.mem_cons_self _ _, hk⟩
      · obtain ⟨h₁, h₂⟩ := ih h
        exact ⟨List.mem_cons_of_mem _ h₁, h₂⟩
    · simp only [removeLoop, hk, if_neg, not_false_iff] at h
      obtain ⟨h₁, h₂⟩ := ih h
      exact ⟨List.mem_cons_of_mem _ h₁, h₂⟩

theorem lookupTB_isSome_of_mem (m : TrackedMap) (k : Option String)
    (b : Button) (h : (k, b) ∈ m) : (lookupTB m k).isSome := by
  induction m with
  | nil => simp at h
  | cons q rest ih =>
    obtain ⟨k₀, v₀⟩ := q
    by_cases hk : k₀ = k
    · simp [lookupTB, hk]
    · rcases List.mem_cons.mp h with h | h
      · exact absurd (congrArg Prod.fst h).symm hk
      · simpa [lookupTB, hk] using ih h

/-- The `available` loop answers exactly what the first snapshot entry with
the button's incident id answers: `find?` semantics of the linear scan. -/
theorem availableLoop_eq_find (target : Option String)
    (incidents : List Incident) :
    availableLoop target incidents =
      match incidents.find? (fun j => decide (j.id = target)) with
      | some i => decide (i.status = some "triggered")
      | none => false := by
  induction incidents with
  | nil => simp [availableLoop]
  | cons inc rest ih =>
    by_cases h : inc.id = target
    · simp [availableLoop, List.find?_cons, h]
    · simp [availableLoop, List.find?_cons, h, ih]

/-- A pass over a map whose key set already equals the snapshot's triggered
id set is a complete no-op: nothing is created, nothing is removed, the map
is unchanged. -/
theorem reconcile_noop_of_keys (email : String) (incs : List Incident)
    (T : TrackedMap)
    (hkeys : ∀ k, (lookupTB T k).isSome ↔ k ∈ triggered_ids incs) :
    async_add_remove_buttons email incs T
      = { tracked := T, created := [], removed := [] } := by
  have ha : addLoop email incs T [] = (T, []) :=
    addLoop_noop email incs T []
      (fun inc hi hs =>
        (hkeys inc.id).mpr (mem_triggered_ids.mpr ⟨inc, hi, hs, rfl⟩))
  have hr : removeLoop (triggered_ids incs) T = (T, []) :=
    removeLoop_noop _ T
      (fun p hp =>
        (hkeys p.1).mp (lookupTB_isSome_of_mem T p.1 p.2 (by simpa using hp)))
  simp [async_add_remove_buttons, ha, hr]

/-! ### Helper lemmas about the startup orphan sweep -/

theorem isPrefixOf_exists_append (p l : List Char) :
    p.isPrefixOf l = true ↔ ∃ t, l = p ++ t := by
  induction p generalizing l with
  | nil => simp [List.isPrefixOf]
  | cons c cs ih =>
    cases l with
    | nil => simp [List.isPrefixOf]
    | cons d ds =>
      simp only [List.isPrefixOf, Bool.and_eq_true, beq_iff_eq, ih,
        List.cons_append, List.cons.injEq]
      constructor
      · rintro ⟨rfl, t, rfl⟩; exact ⟨t, rfl, rfl⟩
      · rintro ⟨t, rfl, rfl⟩; exact ⟨rfl, t, rfl⟩

theorem py_startswith_exists (s pre : String) :
    py_startswith s pre = true ↔ ∃ t : String, s = pre ++ t := by
  unfold py_startswith
  rw [isPrefixOf_exists_append]
  constructor
  · rintro ⟨t, ht⟩
    exact ⟨⟨t⟩, String.ext (by rw [String.data_append]; exact ht)⟩
  · rintro ⟨t, rfl⟩
    exact ⟨t.data, by rw [String.data_append]⟩

theorem string_append_left_cancel {pre a b : String}
    (h : pre ++ a = pre ++ b) : a = b := by
  apply String.ext
  have h' := congrArg String.data h
  rw [String.data_append, String.data_append] at h'
  exact List.append_cancel_left h'

theorem mem_dictInsert (m : List (String × RegistryEntry)) (k : String)
    (v : RegistryEntry) (q : String × RegistryEntry)
    (h : q ∈ dictInsert m k v) : q ∈ m ∨ q = (k, v) := by
  unfold dictInsert at h
  by_cases hl : ((m.lookup k).isSome : Prop)
  · rw [if_pos hl] at h
    obtain ⟨p, hp, hq⟩ := List.mem_map.mp h
    by_cases hpk : p.1 = k
    · rw [if_pos hpk] at hq
      exact Or.inr hq.symm
    · rw [if_neg hpk] at hq
      exact Or.inl (hq ▸ hp)
  · rw [if_neg hl] at h
    rcases List.mem_append.mp h with h | h
    · exact Or.inl h
    · exact Or.inr (by simpa using h)

theorem ebeStep_inv (m : List (String × RegistryEntry)) (e : RegistryEntry)
    (h : ∀ p ∈ m, p.2.unique_id = some p.1 ∧ p.1 ≠ ""
      ∧ py_startswith p.1 "pagerduty_ack_" = true) :
    ∀ q ∈ ebeStep m e, q.2.unique_id = some q.1 ∧ q.1 ≠ ""
      ∧ py_startswith q.1 "pagerduty_ack_" = true := by
  intro q hq
  unfold ebeStep at hq
  split at hq
  next s heq =>
    split at hq
    next hc =>
      rcases mem_dictInsert m s e q hq with h' | h'
      · exact h q h'
      · subst h'
        exact ⟨heq, hc.1, hc.2⟩
    next => exact h q hq
  next => exact h q hq

theorem foldl_ebeStep_inv (entities : List RegistryEntry) :
    ∀ m : List (String × RegistryEntry),
      (∀ p ∈ m, p.2.unique_id = some p.1 ∧ p.1 ≠ ""
        ∧ py_startswith p.1 "pagerduty_ack_" = true) →
      ∀ q ∈ entities.foldl ebeStep m, q.2.unique_id = some q.1 ∧ q.1 ≠ ""
        ∧ py_startswith q.1 "pagerduty_ack_" = true := by
  induction entities with
  | nil => intro m hm q hq; rw [List.foldl_nil] at hq; exact hm q hq
  | cons e rest ih =>
    intro m hm q hq
    rw [List.foldl_cons] at hq
    exact ih (ebeStep m e) (ebeStep_inv m e hm) q hq

theorem mem_existing_button_entities (entities : List RegistryEntry)
    (q : String × RegistryEntry) (h : q ∈ existing_button_entities entities) :
    q.2.unique_id = some q.1 ∧ q.1 ≠ ""
      ∧ py_startswith q.1 "pagerduty_ack_" = true :=
  foldl_ebeStep_inv entities [] (by simp) q h

theorem py_startswith_ack_ne_empty {s : String}
    (h : py_startswith s "pagerduty_ack_" = true) : s ≠ "" := by
  intro he
  subst he
  revert h
  decide

theorem lookup_isSome_exists (m : List (String × RegistryEntry))
    (k : String) : (m.lookup k).isSome = true ↔ ∃ v, (k, v) ∈ m := by
  induction m with
  | nil => simp [List.lookup]
  | cons p rest ih =>
    obtain ⟨k₀, v₀⟩ := p
    by_cases hk : k = k₀
    · subst hk
      simp [List.lookup]
    · rw [show ((k₀, v₀) :: rest).lookup k = rest.lookup k by
        simp [List.lookup, beq_eq_false_iff_ne.mpr hk]]
      rw [ih]
      constructor
      · rintro ⟨v, hv⟩
        exact ⟨v, List.mem_cons_of_mem _ hv⟩
      · rintro ⟨v, hv⟩
        rcases List.mem_cons.mp hv with h' | h'
        · exact absurd (congrArg Prod.fst h') hk
        · exact ⟨v, h'⟩

theorem dictInsert_mem_key (m : List (String × RegistryEntry)) (k : String)
    (v : RegistryEntry) : ∃ w, (k, w) ∈ dictInsert m k v := by
  unfold dictInsert
  by_cases hl : ((m.lookup k).isSome = true)
  · rw [if_pos hl]
    obtain ⟨v₀, hv₀⟩ := (lookup_isSome_exists m k).mp hl
    exact ⟨v, List.mem_map.mpr ⟨(k, v₀), hv₀, by simp⟩⟩
  · rw [if_neg hl]
    exact ⟨v, List.mem_append_right m (List.mem_singleton.mpr rfl)⟩

theorem dictInsert_key_mono (m : List (String × RegistryEntry))
    (k' : String) (v' : RegistryEntry) (k : String)
    (h : ∃ v, (k, v) ∈ m) : ∃ v, (k, v) ∈ dictInsert m k' v' := by
  obtain ⟨v, hv⟩ := h
  unfold dictInsert
  by_cases hl : ((m.lookup k').isSome = true)
  · rw [if_pos hl]
    by_cases hk : k = k'
    · subst hk
      exact ⟨v', List.mem_map.mpr ⟨(k, v), hv, by simp⟩⟩
    · exact ⟨v, List.mem_map.mpr ⟨(k, v), hv, by simp [hk]⟩⟩
  · rw [if_neg hl]
    exact ⟨v, List.mem_append_left _ hv⟩

theorem ebeStep_key_mono (m : List (String × RegistryEntry))
    (e : RegistryEntry) (k : String) (h : ∃ v, (k, v) ∈ m) :
    ∃ v, (k, v) ∈ ebeStep m e := by
  unfold ebeStep
  split
  next s _ =>
    split
    next => exact dictInsert_key_mono m s e k h
    next => exact h
  next => exact h

theorem foldl_ebeStep_key_mono (entities : List RegistryEntry) :
    ∀ (m : List (String × RegistryEntry)) (k : String),
      (∃ v, (k, v) ∈ m) → ∃ v, (k, v) ∈ entities.foldl ebeStep m := by
  induction entities with
  | nil => intro m k h; rw [List.foldl_nil]; exact h
  | cons e rest ih =>
    intro m k h
    rw [List.foldl_cons]
    exact ih (ebeStep m e) k (ebeStep_key_mono m e k h)

theorem foldl_ebeStep_key_complete (entities : List RegistryEntry) :
    ∀ (m : List (String × RegistryEntry)) (e : RegistryEntry) (s : String),
      e ∈ entities → e.unique_id = some s →
      py_startswith s "pagerduty_ack_" = true →
      ∃ v, (s, v) ∈ entities.foldl ebeStep m := by
  induction entities with
  | nil => intro m e s hmem _ _; simp at hmem
  | cons e₀ rest ih =>
    intro m e s hmem huid hpre
    have hne : s ≠ "" := py_startswith_ack_ne_empty hpre
    rw [List.foldl_cons]
    rcases List.mem_cons.mp hmem with h | h
    · subst h
      have hstep : ebeStep m e = dictInsert m s e := by
        unfold ebeStep
        rw [huid]
        simp [hne, hpre]
      rw [hstep] at *
      exact foldl_ebeStep_key_mono rest (dictInsert m s e) s
        (dictInsert_mem_key m s e)
    · exact ih (ebeStep m e₀) e s h huid hpre

theorem ebeStep_values (P : RegistryEntry → Prop)
    (m : List (String × RegistryEntry)) (e : RegistryEntry)
    (hm : ∀ p ∈ m, P p.2) (he : P e) : ∀ q ∈ ebeStep m e, P q.2 := by
  intro q hq
  unfold ebeStep at hq
  split at hq
  next s _ =>
    split at hq
    next =>
      rcases mem_dictInsert m s e q hq with h' | h'
      · exact hm q h'
      · rw [h']
        exact he
    next => exact hm q hq
  next => exact hm q hq

theorem foldl_ebeStep_values (P : RegistryEntry → Prop)
    (entities : List RegistryEntry) :
    ∀ m : List (String × RegistryEntry), (∀ p ∈ m, P p.2) →
      (∀ e ∈ entities, P e) → ∀ q ∈ entities.foldl ebeStep m, P q.2 := by
  induction entities with
  | nil => intro m hm _ q hq; rw [List.foldl_nil] at hq; exact hm q hq
  | cons e rest ih =>
    intro m hm hent q hq
    rw [List.foldl_cons] at hq
    exact ih (ebeStep m e)
      (ebeStep_values P m e hm (hent e (List.mem_cons_self e rest)))
      (fun e' he' => hent e' (List.mem_cons_of_mem e he')) q hq

theorem existing_button_entities_values (entities : List RegistryEntry) :
    ∀ q ∈ existing_button_entities entities, q.2 ∈ entities :=
  foldl_ebeStep_values (fun e => e ∈ entities) entities [] (by simp)
    (fun _ he => he)

/-! ### The claims -/

/-- C1: after one reconciliation pass of `async_add_remove_buttons` over a
snapshot, the key set of `tracked_buttons` equals exactly the set of id
values of the snapshot's incidents whose status is `"triggered"`: every
newly triggered id has an entry, every tracked key outside that set is
removed, and no other key exists. -/
theorem C1_tracked_key_set (email : String) (incidents : List Incident)
    (tracked : TrackedMap) (k : Option String) :
    (lookupTB (async_add_remove_buttons email incidents tracked).tracked
        k).isSome
      ↔ ∃ i ∈ incidents, i.status = some "triggered" ∧ i.id = k :=
  (reconcile_lookup_isSome email incidents tracked k).trans mem_triggered_ids

/-- C2: reconciliation is idempotent — running `async_add_remove_buttons` a
second time with the same snapshot immediately after a pass over it adds no
button to the tracked map and removes none. -/
theorem C2_reconcile_idempotent (email : String) (incidents : List Incident)
    (tracked : TrackedMap) :
    (async_add_remove_buttons email incidents
        (async_add_remove_buttons email incidents tracked).tracked).created
        = []
      ∧ (async_add_remove_buttons email incidents
          (async_add_remove_buttons email incidents tracked).tracked).removed
        = [] := by
  have h := reconcile_noop_of_keys email incidents
    (async_add_remove_buttons email incidents tracked).tracked
    (fun k => reconcile_lookup_isSome email incidents tracked k)
  rw [h]
  exact ⟨rfl, rfl⟩

/-- C4: `async_press` requests a coordinator refresh if and only if the
remote acknowledge call succeeds; on failure the error is re-raised to the
caller, no refresh is requested, and the button's stored fields and the
tracked map are unchanged. -/
theorem C4_press_refresh_iff_success (b : Button) (tracked : TrackedMap)
    (remote : Except String Unit) :
    ((async_press b tracked remote).refresh_requested = true
        ↔ remote = Except.ok ())
      ∧ (async_press b tracked remote).result = remote
      ∧ (async_press b tracked remote).button_after = b
      ∧ (async_press b tracked remote).tracked_after = tracked := by
  cases remote with
  | ok u => cases u; refine ⟨⟨fun _ => rfl, fun _ => rfl⟩, rfl, rfl, rfl⟩
  | error e =>
    refine ⟨⟨fun h => ?_, fun h => ?_⟩, rfl, rfl, rfl⟩ <;> simp_all [async_press]

/-- C5: a button press issues exactly one partial-update request, to
`/incidents/{incident_id}` with body `{type: "incident",
status: "acknowledged"}`; the request carries a `From` header with the
configured operator email exactly when a non-empty email is configured, and
no other request (hence no retry) is issued. -/
theorem C5_single_acknowledge_request (b : Button) :
    (acknowledge_incident b).length = 1
      ∧ ∀ r ∈ acknowledge_incident b,
          r.path = "/incidents/" ++ pyStrOptS b.incident_id
            ∧ r.body_type = "incident"
            ∧ r.body_status = "acknowledged"
            ∧ ((∃ v, ("From", v) ∈ r.headers) ↔ b.default_from_email ≠ "")
            ∧ ∀ v, ("From", v) ∈ r.headers → v = b.default_from_email := by
  refine ⟨rfl, ?_⟩
  intro r hr
  rw [acknowledge_incident, List.mem_singleton] at hr
  subst hr
  by_cases he : b.default_from_email = "" <;>
    simp [he]

/-- C8 counterexample: the button for incident `"A"` exposes the unique id
`"pagerduty_ack_A"`, not `"ack_A"` — the stable-identifier prefix of the
code is `"pagerduty_ack_"`, not `"ack_"`. -/
theorem C8_counterexample :
    button_unique_id
        (mkButton ⟨some "A", some "triggered", some 1, some "T", some "S"⟩ "")
        ≠ "ack_" ++ "A"
      ∧ button_unique_id
          (mkButton ⟨some "A", some "triggered", some 1, some "T", some "S"⟩
            "")
          = "pagerduty_ack_A" := by
  constructor
  · decide
  · rfl

/-- C8 (amended): every button exposes the stable identifier
`"pagerduty_ack_"` followed by the incident's id, and the display name
`"Acknowledge Incident #"` followed by the incident's `incident_number`. -/
theorem C8_identifier_and_name (incident : Incident) (email : String) :
    button_unique_id (mkButton incident email)
        = "pagerduty_ack_" ++ pyStrOptS incident.id
      ∧ button_name (mkButton incident email)
        = "Acknowledge Incident #" ++ pyStrOptI incident.incident_number :=
  ⟨rfl, rfl⟩

/-- C6: `available` returns `true` only if the current snapshot holds an
incident with the button's incident id and status `"triggered"`; it returns
`false` when no incident carries that id, and `false` when the incident the
scan finds has any other status. -/
theorem C6_available_characterisation (b : Button)
    (incidents : List Incident) :
    (available b incidents = true →
        ∃ i ∈ incidents, i.id = b.incident_id
          ∧ i.status = some "triggered")
      ∧ ((∀ i ∈ incidents, i.id ≠ b.incident_id) →
          available b incidents = false)
      ∧ (∀ i, incidents.find? (fun j => decide (j.id = b.incident_id))
            = some i →
          i.status ≠ some "triggered" → available b incidents = false) := by
  refine ⟨?_, ?_, ?_⟩
  · intro h
    rw [available, availableLoop_eq_find] at h
    cases hf : incidents.find? (fun j => decide (j.id = b.incident_id)) with
    | none => rw [hf] at h; simp at h
    | some i =>
      rw [hf] at h
      refine ⟨i, List.mem_of_find?_eq_some hf, ?_, by simpa using h⟩
      have := List.find?_some hf
      simpa using this
  · intro h
    rw [available, availableLoop_eq_find]
    cases hf : incidents.find? (fun j => decide (j.id = b.incident_id)) with
    | none => simp
    | some i =>
      have hmem := List.mem_of_find?_eq_some hf
      have hid : i.id = b.incident_id := by simpa using List.find?_some hf
      exact absurd hid (h i hmem)
  · intro i hf hs
    rw [available, availableLoop_eq_find, hf]
    simpa using hs

/-- C10: with duplicate ids in the snapshot, `available` is decided solely
by the first entry whose id matches the button's incident id: it returns
exactly that entry's `status == "triggered"` test, regardless of any later
duplicate. -/
theorem C10_available_first_match (b : Button) (incidents : List Incident)
    (i : Incident)
    (hf : incidents.find? (fun j => decide (j.id = b.incident_id)) = some i) :
    available b incidents = decide (i.status = some "triggered") := by
  rw [available, availableLoop_eq_find, hf]

/-- C10 witness: with first entry for id `"A"` acknowledged and a later
duplicate triggered, `available` is `false` — decided by the first match. -/
theorem C10_witness :
    available ⟨some "A", some 1, "T", "S", ""⟩
        [⟨some "A", some "acknowledged", some 1, some "T", some "S"⟩,
         ⟨some "A", some "triggered", some 1, some "T", some "S"⟩]
      = false := by
  have h := C10_available_first_match ⟨some "A", some 1, "T", "S", ""⟩
    [⟨some "A", some "acknowledged", some 1, some "T", some "S"⟩,
     ⟨some "A", some "triggered", some 1, some "T", some "S"⟩]
    ⟨some "A", some "acknowledged", some 1, some "T", some "S"⟩
    (by decide)
  rw [h]
  decide

/-- C7 counterexample: a snapshot whose only entry has status `"triggered"`
but no id is not skipped — the pass tracks (and creates) a button under the
key `none` (Python `None`), refuting "it creates no tracked object for
it". -/
theorem C7_counterexample :
    (async_add_remove_buttons ""
          [⟨none, some "triggered", none, none, none⟩] []).created ≠ []
      ∧ (async_add_remove_buttons ""
            [⟨none, some "triggered", none, none, none⟩] []).tracked
        = [(none, ⟨none, none, "Unknown", "Unknown", ""⟩)] := by
  constructor
  · decide
  · decide

/-- C7 (amended): a triggered snapshot entry with a missing id does not
abort the pass and does not prevent any well-formed entry from being
processed, but it is not skipped either: the pass tracks a button for it
under the id value `none`. -/
theorem C7_malformed_entry (email : String) (incidents : List Incident)
    (tracked : TrackedMap) (bad : Incident) (hmem : bad ∈ incidents)
    (hs : bad.status = some "triggered") (hid : bad.id = none) :
    (lookupTB (async_add_remove_buttons email incidents tracked).tracked
        none).isSome = true
      ∧ ∀ i ∈ incidents, i.status = some "triggered" →
          (lookupTB (async_add_remove_buttons email incidents
              tracked).tracked i.id).isSome = true := by
  constructor
  · exact (reconcile_lookup_isSome email incidents tracked none).mpr
      (mem_triggered_ids.mpr ⟨bad, hmem, hs, hid⟩)
  · intro i hi hsi
    exact (reconcile_lookup_isSome email incidents tracked i.id).mpr
      (mem_triggered_ids.mpr ⟨i, hi, hsi, rfl⟩)

/-- C7 witness: concrete pass over a snapshot holding one malformed entry
(triggered, no id) and one well-formed triggered entry: both end up
tracked. -/
theorem C7_malformed_entry_witness :
    (lookupTB (async_add_remove_buttons ""
        [⟨none, some "triggered", none, none, none⟩,
         ⟨some "A", some "triggered", some 1, some "T", some "S"⟩]
        []).tracked none).isSome = true
      ∧ ∀ i ∈ [(⟨none, some "triggered", none, none, none⟩ : Incident),
          ⟨some "A", some "triggered", some 1, some "T", some "S"⟩],
          i.status = some "triggered" →
          (lookupTB (async_add_remove_buttons ""
              [⟨none, some "triggered", none, none, none⟩,
               ⟨some "A", some "triggered", some 1, some "T", some "S"⟩]
              []).tracked i.id).isSome = true :=
  C7_malformed_entry ""
    [⟨none, some "triggered", none, none, none⟩,
     ⟨some "A", some "triggered", some 1, some "T", some "S"⟩]
    [] ⟨none, some "triggered", none, none, none⟩
    (by decide) (by decide) (by decide)

/-- C9: an id tracked before the pass that is still triggered in the new
snapshot keeps its button object unchanged — the stored display attributes
remain the values captured at creation time, whatever field values the new
snapshot carries for that id. -/
theorem C9_surviving_button_untouched (email : String)
    (incidents : List Incident) (tracked : TrackedMap) (k : Option String)
    (b : Button) (hb : lookupTB tracked k = some b)
    (hk : ∃ i ∈ incidents, i.status = some "triggered" ∧ i.id = k) :
    lookupTB (async_add_remove_buttons email incidents tracked).tracked k
        = some b
      ∧ ∀ b', lookupTB (async_add_remove_buttons email incidents
            tracked).tracked k = some b' →
          extra_state_attributes b' = extra_state_attributes b := by
  have h := reconcile_lookup_preserved email incidents tracked k b hb
    (mem_triggered_ids.mpr hk)
  refine ⟨h, fun b' hb' => ?_⟩
  rw [h] at hb'
  cases hb'
  rfl

/-- C9 witness: a button created from an older snapshot (title `"Old"`)
survives a pass whose snapshot carries title `"New"` for the same triggered
id, with its attributes still the creation-time ones. -/
theorem C9_witness :
    lookupTB (async_add_remove_buttons ""
        [⟨some "A", some "triggered", some 1, some "New", some "S"⟩]
        [(some "A", ⟨some "A", some 1, "Old", "S", ""⟩)]).tracked (some "A")
      = some ⟨some "A", some 1, "Old", "S", ""⟩ :=
  (C9_surviving_button_untouched ""
    [⟨some "A", some "triggered", some 1, some "New", some "S"⟩]
    [(some "A", ⟨some "A", some 1, "Old", "S", ""⟩)] (some "A")
    ⟨some "A", some 1, "Old", "S", ""⟩ (by decide)
    ⟨⟨some "A", some "triggered", some 1, some "New", some "S"⟩,
      by decide, by decide, by decide⟩).1

theorem mem_current_triggered_unique_ids {incidents : List Incident}
    {u : String} :
    u ∈ current_triggered_unique_ids incidents ↔
      ∃ i ∈ incidents, i.status = some "triggered"
        ∧ u = "pagerduty_ack_" ++ pyStrOptS i.id := by
  simp only [current_triggered_unique_ids, List.mem_map, List.mem_filter,
    decide_eq_true_eq]
  constructor
  · rintro ⟨i, ⟨hi, hs⟩, hu⟩
    exact ⟨i, hi, hs, hu.symm⟩
  · rintro ⟨i, hi, hs, hu⟩
    exact ⟨i, ⟨hi, hs⟩, hu.symm⟩

/-- C3: the startup sweep of `async_setup_entry` removes exactly the stale
acknowledge-button registry records.  Soundness: every removed record's
identifier is `"pagerduty_ack_"` followed by an incident id that is not
triggered in the initial snapshot.  A record whose identifier does not
carry that prefix is never removed.  Completeness: for every persisted
record whose identifier carries the prefix and whose derived incident id is
not triggered, a record with that identifier is removed — and that record
is the persisted record itself whenever registry identifiers are unique,
which the hosting entity registry guarantees.  On persisted records for
incidents `1`, `2`, `3` with only incident `2` triggered, the sweep removes
exactly the records for incidents `1` and `3`. -/
theorem C3_orphan_sweep :
    (∀ (entities : List RegistryEntry) (incidents : List Incident),
        ∀ e ∈ orphan_sweep entities incidents,
          ∃ t : String, e.unique_id = some ("pagerduty_ack_" ++ t)
            ∧ ∀ i ∈ incidents, i.status = some "triggered" →
                pyStrOptS i.id ≠ t)
      ∧ (∀ (entities : List RegistryEntry) (incidents : List Incident),
          ∀ e ∈ entities,
            (∀ s, e.unique_id = some s →
              py_startswith s "pagerduty_ack_" = false) →
            ¬ e ∈ orphan_sweep entities incidents)
      ∧ (∀ (entities : List RegistryEntry) (incidents : List Incident),
          ∀ e ∈ entities, ∀ t : String,
            e.unique_id = some ("pagerduty_ack_" ++ t) →
            (∀ i ∈ incidents, i.status = some "triggered" →
              pyStrOptS i.id ≠ t) →
            ∃ e' ∈ orphan_sweep entities incidents,
              e'.unique_id = some ("pagerduty_ack_" ++ t))
      ∧ (∀ (entities : List RegistryEntry) (incidents : List Incident),
          (∀ e₁ ∈ entities, ∀ e₂ ∈ entities,
            e₁.unique_id = e₂.unique_id → e₁ = e₂) →
          ∀ e ∈ entities, ∀ t : String,
            e.unique_id = some ("pagerduty_ack_" ++ t) →
            (∀ i ∈ incidents, i.status = some "triggered" →
              pyStrOptS i.id ≠ t) →
            e ∈ orphan_sweep entities incidents)
      ∧ orphan_sweep
          [⟨some "pagerduty_ack_1", "button.ack_1"⟩,
           ⟨some "pagerduty_ack_2", "button.ack_2"⟩,
           ⟨some "pagerduty_ack_3", "button.ack_3"⟩]
          [⟨some "2", some "triggered", some 2, none, none⟩]
        = [⟨some "pagerduty_ack_1", "button.ack_1"⟩,
           ⟨some "pagerduty_ack_3", "button.ack_3"⟩] := by
  refine ⟨?_, ?_, ?_, ?_, by decide⟩
  · intro entities incidents e he
    unfold orphan_sweep at he
    obtain ⟨p, hp, hpe⟩ := List.mem_map.mp he
    obtain ⟨hp1, hp2⟩ := List.mem_filter.mp hp
    have hnin : ¬ p.1 ∈ current_triggered_unique_ids incidents :=
      of_decide_eq_true hp2
    obtain ⟨huid, hne, hpre⟩ := mem_existing_button_entities entities p hp1
    obtain ⟨t, hpt⟩ := (py_startswith_exists p.1 "pagerduty_ack_").mp hpre
    refine ⟨t, by rw [← hpe, huid, hpt], ?_⟩
    intro i hi hs heq
    exact hnin (mem_current_triggered_unique_ids.mpr
      ⟨i, hi, hs, by rw [heq, ← hpt]⟩)
  · intro entities incidents e _ hno he
    obtain ⟨p, hp, hpe⟩ := List.mem_map.mp he
    obtain ⟨hp1, _⟩ := List.mem_filter.mp hp
    obtain ⟨huid, _, hpre⟩ := mem_existing_button_entities entities p hp1
    have := hno p.1 (by rw [← hpe]; exact huid)
    rw [hpre] at this
    simp at this
  · intro entities incidents e hmem t huid hstale
    have hpre : py_startswith ("pagerduty_ack_" ++ t) "pagerduty_ack_"
        = true := (py_startswith_exists _ _).mpr ⟨t, rfl⟩
    obtain ⟨v, hv⟩ := foldl_ebeStep_key_complete entities [] e
      ("pagerduty_ack_" ++ t) hmem huid hpre
    have hnin : ¬ ("pagerduty_ack_" ++ t)
        ∈ current_triggered_unique_ids incidents := by
      intro hin
      obtain ⟨i, hi, hs, heq⟩ := mem_current_triggered_unique_ids.mp hin
      exact hstale i hi hs (string_append_left_cancel heq).symm
    have hvuid : v.unique_id = some ("pagerduty_ack_" ++ t) :=
      (mem_existing_button_entities entities ("pagerduty_ack_" ++ t, v)
        hv).1
    refine ⟨v, ?_, hvuid⟩
    exact List.mem_map.mpr ⟨("pagerduty_ack_" ++ t, v),
      List.mem_filter.mpr ⟨hv, decide_eq_true hnin⟩, rfl⟩
  · intro entities incidents huniq e hmem t huid hstale
    have hpre : py_startswith ("pagerduty_ack_" ++ t) "pagerduty_ack_"
        = true := (py_startswith_exists _ _).mpr ⟨t, rfl⟩
    obtain ⟨v, hv⟩ := foldl_ebeStep_key_complete entities [] e
      ("pagerduty_ack_" ++ t) hmem huid hpre
    have hnin : ¬ ("pagerduty_ack_" ++ t)
        ∈ current_triggered_unique_ids incidents := by
      intro hin
      obtain ⟨i, hi, hs, heq⟩ := mem_current_triggered_unique_ids.mp hin
      exact hstale i hi hs (string_append_left_cancel heq).symm
    have hvuid : v.unique_id = some ("pagerduty_ack_" ++ t) :=
      (mem_existing_button_entities entities ("pagerduty_ack_" ++ t, v)
        hv).1
    have hvmem : v ∈ entities :=
      existing_button_entities_values entities ("pagerduty_ack_" ++ t, v) hv
    have hve : v = e := huniq v hvmem e hmem (hvuid.trans huid.symm)
    rw [← hve]
    exact List.mem_map.mpr ⟨("pagerduty_ack_" ++ t, v),
      List.mem_filter.mpr ⟨hv, decide_eq_true hnin⟩, rfl⟩

end PagerDuty
